import Mathlib

/-!
Verification of the stufflog entry store and query engine.

The repository keeps one YAML file per category.  The file parses to a
dictionary whose key `Entries` maps entry titles to entries; an entry has a
`Datetime` string, an integer `Rating` and an optional `Comment`.  The
repository holds two revisions of the application: a legacy monolithic one
(`src/stufflog.py`, class `StufflogApp`) and a refactored one
(`src/services/file_service.py` class `FileService` together with
`src/stufflog/stufflog_app.py` class `StufflogApp`).  Both are embedded here.

Modelling conventions:
* A Python dict with string keys is an insertion-ordered association list;
  dict semantics guarantee the key list has no duplicates, which theorems
  assume explicitly where it matters.
* `yaml.dump(data, sort_keys=False)` followed by `yaml.safe_load` is modelled
  as an exact inverse pair: the backing file state `FileState.parsed d`
  holds the structured value `d` that the file parses to.  A file that is
  absent, zero-byte, or not valid YAML is one of the other `FileState`
  constructors.
* `datetime.datetime.fromisoformat` is modelled by `parseISO`, a parser for
  the `YYYY-MM-DD[THH:MM[:SS[.ffffff]]]` shapes the application produces,
  failing on the empty string and on malformed input, with chronological
  comparison of the parsed values.
* `datetime.datetime.now()` is passed in explicitly as the `now` argument.
* Raised exceptions become `Except StufflogError`; an operation that writes
  the backing file returns the new `FileState`, and an operation that raises
  before writing returns the unchanged input state.
-/

/-- Entry: one logged item as stored under the `Entries` mapping.  Each field
is optional because a hand-edited YAML file may omit any of them; the code
reads `Datetime` and `Rating` with `.get` defaults and checks `Comment`
membership explicitly. -/
structure Entry where
  datetime : Option String
  rating : Option Int
  comment : Option String
deriving Repr, DecidableEq

/-- EntryMap: the `Entries` dictionary, title to entry, in insertion order. -/
abbrev EntryMap := List (String × Entry)

/-- StoredData: the top-level dictionary a category file parses to.  The
`Entries` key may be absent (`none`); no other key is consulted by the
code, so no other key is modelled. -/
structure StoredData where
  entries : Option EntryMap
deriving Repr, DecidableEq

/-- FileState: the state of one category's backing file on disk. -/
inductive FileState where
  | missing
  | emptyFile
  | invalidYaml
  | parsed (d : StoredData)
deriving Repr, DecidableEq

/-- StufflogError: the domain error (`StufflogError` in Python) plus the
`ValueError` that `datetime.fromisoformat` raises, tagged by kind. -/
inductive StufflogError where
  | notFound (msg : String)
  | duplicateTitle (title : String)
  | entryNotFound (title : String)
  | yamlParseError
  | dateParseError (s : String)
deriving Repr, DecidableEq

/-- ResultEntry: an entry copy with its `Title` attached, as built by
`entry_copy = entry.copy(); entry_copy['Title'] = title`. -/
structure ResultEntry where
  title : String
  entry : Entry
deriving Repr, DecidableEq

/-- DateTime: the fields of a parsed ISO-8601 timestamp. -/
structure DateTime where
  year : Nat
  month : Nat
  day : Nat
  hour : Nat
  minute : Nat
  second : Nat
deriving Repr, DecidableEq

/-- Mixed-radix encoding of a `DateTime`; on values whose fields are within
calendar bounds (as `parseISO` validates) it is injective and order-preserving,
so comparing encodings models Python's chronological datetime comparison. -/
def DateTime.enc (d : DateTime) : Nat :=
  ((((d.year * 13 + d.month) * 32 + d.day) * 24 + d.hour) * 60 + d.minute) * 60
    + d.second

/-- Chronological `<=` on datetimes. -/
def dtLe (a b : DateTime) : Bool := decide (a.enc ≤ b.enc)

/-- Chronological `>=` on datetimes. -/
def dtGe (a b : DateTime) : Bool := decide (b.enc ≤ a.enc)

/-- Two-digit field of an ISO timestamp. -/
def digit2 (a b : Char) : Option Nat :=
  if a.isDigit && b.isDigit then
    some ((a.toNat - 48) * 10 + (b.toNat - 48))
  else none

/-- Four-digit year field of an ISO timestamp. -/
def digit4 (a b c d : Char) : Option Nat :=
  if a.isDigit && b.isDigit && c.isDigit && d.isDigit then
    some (((a.toNat - 48) * 10 + (b.toNat - 48)) * 100
      + ((c.toNat - 48) * 10 + (d.toNat - 48)))
  else none

/-- Time-of-day part of `parseISO`: the characters after `YYYY-MM-DD`. -/
def parseISOTime (y mo da : Nat) : List Char → Option DateTime
  | [] => some ⟨y, mo, da, 0, 0, 0⟩
  | sep :: h1 :: h2 :: c1 :: m1 :: m2 :: rest =>
    if (sep == 'T' || sep == ' ') && c1 == ':' then
      match digit2 h1 h2, digit2 m1 m2 with
      | some h, some mi =>
        if h ≤ 23 ∧ mi ≤ 59 then
          match rest with
          | [] => some ⟨y, mo, da, h, mi, 0⟩
          | ':' :: s1 :: s2 :: rest2 =>
            match digit2 s1 s2 with
            | some s =>
              if s ≤ 59 then
                match rest2 with
                | [] => some ⟨y, mo, da, h, mi, s⟩
                | '.' :: frac =>
                  if frac ≠ [] ∧ frac.all Char.isDigit then
                    some ⟨y, mo, da, h, mi, s⟩
                  else none
                | _ => none
              else none
            | none => none
          | _ => none
        else none
      | _, _ => none
    else none
  | _ => none

/-- Model of `datetime.datetime.fromisoformat`: parses
`YYYY-MM-DD[THH:MM[:SS[.ffffff]]]`, returns `none` (the raised `ValueError`)
on anything else, in particular on the empty string. -/
def parseISO (s : String) : Option DateTime :=
  match s.data with
  | y1 :: y2 :: y3 :: y4 :: c1 :: m1 :: m2 :: c2 :: d1 :: d2 :: rest =>
    if c1 == '-' && c2 == '-' then
      match digit4 y1 y2 y3 y4, digit2 m1 m2, digit2 d1 d2 with
      | some y, some mo, some da =>
        if 1 ≤ mo ∧ mo ≤ 12 ∧ 1 ≤ da ∧ da ≤ 31 then
          parseISOTime y mo da rest
        else none
      | _, _, _ => none
    else none
  | _ => none

/-- Model of `entry.get('Datetime', '')`. -/
def datetimeStr (e : Entry) : String := e.datetime.getD ""

/-- Model of `entry.get('Rating', 0)`. -/
def ratingD (e : Entry) : Int := e.rating.getD 0

/-- Model of `data['Entries']`; every load path guarantees the key exists. -/
def getEntries (d : StoredData) : EntryMap := d.entries.getD []

/-- Model of `if comment: entry['Comment'] = comment` in `add_entry`: the
`Comment` field is set only when a truthy (non-`None`, non-empty) comment
string was supplied. -/
def commentField (c : Option String) : Option String :=
  match c with
  | some c0 => if c0 = "" then none else some c0
  | none => none

namespace FileService

/-- FileService.load_stufflog (src/services/file_service.py): a missing file
(`FileNotFoundError`), an unparseable file (`yaml.YAMLError`) and a zero-byte
file (`safe_load` returning `None`, defaulted by `or {}`) all yield an
empty-entries value; a parsed value missing the `Entries` key has it added. -/
def load_stufflog : FileState → StoredData
  | .missing => ⟨some []⟩
  | .emptyFile => ⟨some []⟩
  | .invalidYaml => ⟨some []⟩
  | .parsed d =>
    match d.entries with
    | some _ => d
    | none => ⟨some []⟩

/-- FileService.save_stufflog: whole-file overwrite with
`yaml.dump(data, sort_keys=False)`; the file afterwards parses back to the
written value with insertion order preserved. -/
def save_stufflog (d : StoredData) : FileState := .parsed d

end FileService

namespace Legacy

/-- StufflogApp.load_stufflog of the legacy revision (src/stufflog.py):
raises `StufflogError` when the file does not exist, raises
`StufflogError('Error parsing YAML file: ...')` on `yaml.YAMLError`, and
otherwise defaults a missing `Entries` key (also after `safe_load` returns
`None` for a zero-byte file). -/
def load_stufflog : FileState → Except StufflogError StoredData
  | .missing => .error (.notFound "no stufflog found for category")
  | .emptyFile => .ok ⟨some []⟩
  | .invalidYaml => .error .yamlParseError
  | .parsed d =>
    match d.entries with
    | some _ => .ok d
    | none => .ok ⟨some []⟩

end Legacy

namespace StufflogApp

/-- StufflogApp.load_stufflog of the refactored revision
(src/stufflog/stufflog_app.py): raises `StufflogError` when the backing file
does not exist, otherwise delegates to `FileService.load_stufflog` (which in
this model never fails). -/
def load_stufflog (fs : FileState) : Except StufflogError StoredData :=
  match fs with
  | .missing => .error (.notFound "no stufflog found for category")
  | _ => .ok (FileService.load_stufflog fs)

/-- StufflogApp.add_entry: load, reject a duplicate title before any write,
build the entry (`Comment` only for a truthy comment string), append it and
save. -/
def add_entry (fs : FileState) (title : String) (rating : Int)
    (comment : Option String) (now : String) :
    Except StufflogError Unit × FileState :=
  match load_stufflog fs with
  | .error e => (.error e, fs)
  | .ok data =>
    if (getEntries data).any (fun p => p.1 == title) then
      (.error (.duplicateTitle title), fs)
    else
      (.ok (), FileService.save_stufflog
        { data with
          entries := some (getEntries data
            ++ [(title, ⟨some now, some rating, commentField comment⟩)]) })

/-- StufflogApp.delete_entry: load, raise when the title is not a key,
otherwise remove the key and save. -/
def delete_entry (fs : FileState) (title : String) :
    Except StufflogError Unit × FileState :=
  match load_stufflog fs with
  | .error e => (.error e, fs)
  | .ok data =>
    if (getEntries data).any (fun p => p.1 == title) then
      (.ok (), FileService.save_stufflog
        { data with
          entries := some ((getEntries data).eraseP (fun p => p.1 == title)) })
    else
      (.error (.entryNotFound title), fs)

end StufflogApp

/-- Filter test applied to one entry by the `query_entries` loop body: the
`include` flag starts true, each set bound may clear it, and each active date
bound parses the entry's datetime (then the bound) with a raised `ValueError`
on parse failure. -/
def queryCheck (gt lt : Option Int) (after before : Option String)
    (e : Entry) : Except StufflogError Bool :=
  let inc1 : Bool :=
    match gt with
    | some g => if ratingD e ≤ g then false else true
    | none => true
  let inc2 : Bool :=
    match lt with
    | some l => if ratingD e ≥ l then false else inc1
    | none => inc1
  let step3 : Except StufflogError Bool :=
    match after with
    | none => .ok inc2
    | some a =>
      match parseISO (datetimeStr e) with
      | none => .error (.dateParseError (datetimeStr e))
      | some ed =>
        match parseISO a with
        | none => .error (.dateParseError a)
        | some fd => .ok (if dtLe ed fd then false else inc2)
  match step3 with
  | .error err => .error err
  | .ok inc3 =>
    match before with
    | none => .ok inc3
    | some b =>
      match parseISO (datetimeStr e) with
      | none => .error (.dateParseError (datetimeStr e))
      | some ed =>
        match parseISO b with
        | none => .error (.dateParseError b)
        | some fd => .ok (if dtGe ed fd then false else inc3)

/-- The `query_entries` loop over the `Entries` items, in stored order,
collecting included entries with their `Title` attached; the first raised
parse error aborts the whole query. -/
def queryEntries (gt lt : Option Int) (after before : Option String) :
    EntryMap → Except StufflogError (List ResultEntry)
  | [] => .ok []
  | (title, e) :: rest =>
    match queryCheck gt lt after before e with
    | .error err => .error err
    | .ok inc =>
      match queryEntries gt lt after before rest with
      | .error err => .error err
      | .ok rs => .ok (if inc then ⟨title, e⟩ :: rs else rs)

/-- Python substring membership `needle in hay` on strings. -/
def strContains (hay needle : String) : Bool :=
  hay.data.tails.any (fun suf => needle.data.isPrefixOf suf)

/-- Model of Python's `str.lower()`: lower-case character by character. -/
def strLower (s : String) : String := ⟨s.data.map Char.toLower⟩

/-- The `search_entries` loop body: case-insensitive match against the title,
or against the comment when one is present.  `term_lc` is the search term
already lower-cased (done once before the loop). -/
def searchMatches (term_lc : String) (title : String) (e : Entry) : Bool :=
  let title_match := strContains (strLower title) term_lc
  let comment_match :=
    match e.comment with
    | some c => strContains (strLower c) term_lc
    | none => false
  title_match || comment_match

/-- The `search_entries` loop over the `Entries` items, in stored order. -/
def searchLoop (term_lc : String) : EntryMap → List ResultEntry
  | [] => []
  | (title, e) :: rest =>
    if searchMatches term_lc title e then
      ⟨title, e⟩ :: searchLoop term_lc rest
    else
      searchLoop term_lc rest

/-- search_entries on a loaded entry mapping: lower-case the term once, then
run the loop. -/
def searchEntries (es : EntryMap) (term : String) : List ResultEntry :=
  searchLoop (strLower term) es

namespace StufflogApp

/-- StufflogApp.query_entries: load the category, then filter its entries. -/
def query_entries (fs : FileState) (gt lt : Option Int)
    (after before : Option String) :
    Except StufflogError (List ResultEntry) :=
  match load_stufflog fs with
  | .error e => .error e
  | .ok data => queryEntries gt lt after before (getEntries data)

/-- StufflogApp.search_entries: load the category, then search its entries. -/
def search_entries (fs : FileState) (term : String) :
    Except StufflogError (List ResultEntry) :=
  match load_stufflog fs with
  | .error e => .error e
  | .ok data => .ok (searchEntries (getEntries data) term)

end StufflogApp

/-- Titles of the entries a successful load of `fs` yields (empty when the
load fails); observer used to state theorems. -/
def loadedTitles (fs : FileState) : List String :=
  match StufflogApp.load_stufflog fs with
  | .ok d => (getEntries d).map Prod.fst
  | .error _ => []

/-- Sample entry with a comment, used by concrete witnesses. -/
def entA : Entry :=
  ⟨some "2024-01-01T10:00:00", some 5, some "a Python desert classic"⟩

/-- Sample entry without a comment, used by concrete witnesses. -/
def entB : Entry := ⟨some "2024-02-01T10:00:00", some 3, none⟩

/-- Sample entry with no datetime field, used by concrete witnesses. -/
def entNoDate : Entry := ⟨none, some 2, none⟩

/-- Sample two-entry mapping used by concrete witnesses. -/
def demoEntries : EntryMap := [("Dune", entA), ("1984", entB)]

/-- Sample file state holding `demoEntries`. -/
def demoFs : FileState := FileState.parsed ⟨some demoEntries⟩

/-- Sample initialized-but-empty file state. -/
def fsEmpty : FileState := FileState.parsed ⟨some []⟩

/-- File state reached from `fsEmpty` by adding the entry `Dune`. -/
def fsDune : FileState :=
  FileState.parsed ⟨some [("Dune", ⟨some "2024-01-01T10:00:00", some 5, none⟩)]⟩

/-- File state reached from `demoFs` by deleting the entry `Dune`. -/
def fs1984 : FileState := FileState.parsed ⟨some [("1984", entB)]⟩

/-! ### General lemmas about the embedded operations -/

theorem nil_isPrefixOf_char (l : List Char) : ([] : List Char).isPrefixOf l = true := by
  cases l <;> rfl

theorem strContains_iff (hay needle : String) :
    strContains hay needle = true
      ↔ ∃ pre post, hay.data = pre ++ needle.data ++ post := by
  unfold strContains
  rw [ List.any_eq_true]
  constructor
  · rintro ⟨suf, hmem, hpre⟩
    obtain ⟨pre, hpre2⟩ := (List.mem_tails suf hay.data).1 hmem
    obtain ⟨post, hpost⟩ := List.isPrefixOf_iff_prefix.1 hpre
    exact ⟨pre, post, by rw [← hpre2, ← hpost, List.append_assoc]⟩
  · rintro ⟨pre, post, h⟩
    refine ⟨needle.data ++ post, ?_, ?_⟩
    · exact (List.mem_tails _ hay.data).2 ⟨pre, by rw [← List.append_assoc, ← h]⟩
    · exact List.isPrefixOf_iff_prefix.2 ⟨post, rfl⟩

theorem strContains_empty_needle (hay : String) : strContains hay "" = true :=
  (strContains_iff hay "").2 ⟨[], hay.data, by simp⟩

theorem searchLoop_empty_term (es : EntryMap) :
    searchLoop "" es = es.map (fun p => ResultEntry.mk p.1 p.2) := by
  induction es with
  | nil => rfl
  | cons p rest ih =>
    obtain ⟨t, e⟩ := p
    have hm : searchMatches "" t e = true := by
      unfold searchMatches
      simp [strContains_empty_needle]
    simp [searchLoop, hm, ih]

theorem searchLoop_eq_filter (tl : String) (es : EntryMap) :
    searchLoop tl es
      = (es.filter (fun p => searchMatches tl p.1 p.2)).map
          (fun p => ResultEntry.mk p.1 p.2) := by
  induction es with
  | nil => rfl
  | cons p rest ih =>
    obtain ⟨t, e⟩ := p
    by_cases h : searchMatches tl t e = true
    · simp [searchLoop, List.filter_cons, h, ih]
    · simp [searchLoop, List.filter_cons, h, ih]

theorem queryCheck_gt_only (r : Int) (e : Entry) :
    queryCheck (some r) none none none e
      = Except.ok (if ratingD e ≤ r then false else true) := rfl

theorem queryCheck_lt_only (r : Int) (e : Entry) :
    queryCheck none (some r) none none e
      = Except.ok (if ratingD e ≥ r then false else true) := rfl

theorem queryCheck_no_filter (e : Entry) :
    queryCheck none none none none e = Except.ok true := rfl

theorem queryEntries_gt_only (r : Int) (es : EntryMap) :
    queryEntries (some r) none none none es
      = Except.ok ((es.filter (fun p => decide (r < ratingD p.2))).map
          (fun p => ResultEntry.mk p.1 p.2)) := by
  induction es with
  | nil => rfl
  | cons p rest ih =>
    obtain ⟨t, e⟩ := p
    by_cases h : ratingD e ≤ r
    · have hf : decide (r < ratingD e) = false := by simp; omega
      simp [queryEntries, queryCheck_gt_only, h, ih, List.filter_cons, hf]
    · have hf : decide (r < ratingD e) = true := by simp; omega
      simp [queryEntries, queryCheck_gt_only, h, ih, List.filter_cons, hf]

theorem queryEntries_lt_only (r : Int) (es : EntryMap) :
    queryEntries none (some r) none none es
      = Except.ok ((es.filter (fun p => decide (ratingD p.2 < r))).map
          (fun p => ResultEntry.mk p.1 p.2)) := by
  induction es with
  | nil => rfl
  | cons p rest ih =>
    obtain ⟨t, e⟩ := p
    by_cases h : ratingD e ≥ r
    · have hf : decide (ratingD e < r) = false := by simp; omega
      simp [queryEntries, queryCheck_lt_only, h, ih, List.filter_cons, hf]
    · have hf : decide (ratingD e < r) = true := by simp; omega
      simp [queryEntries, queryCheck_lt_only, h, ih, List.filter_cons, hf]

theorem queryEntries_no_filter (es : EntryMap) :
    queryEntries none none none none es
      = Except.ok (es.map (fun p => ResultEntry.mk p.1 p.2)) := by
  induction es with
  | nil => rfl
  | cons p rest ih =>
    obtain ⟨t, e⟩ := p
    simp [queryEntries, queryCheck_no_filter, ih]

/-! ### Claim theorems -/

/-- C1 counterexample: the claim says a backing file that exists but fails to
parse never makes Load raise, yet the legacy `StufflogApp.load_stufflog`
(src/stufflog.py) raises a `StufflogError` on a `yaml.YAMLError`. -/
theorem legacy_load_parse_error_raises :
    Legacy.load_stufflog FileState.invalidYaml
      = Except.error StufflogError.yamlParseError := rfl

/-- C1 (amended): for the file-service Load (src/services/file_service.py) a
backing file that exists but fails to parse, or parses to a value missing the
`Entries` key, yields an empty-entries Stufflog without raising, and the
refactored app-level Load propagates no parse error either; the legacy Load
in src/stufflog.py instead raises a `StufflogError` on parse failure. -/
theorem fileservice_load_parse_failure_degrades_empty :
    FileService.load_stufflog FileState.invalidYaml = ⟨some []⟩
    ∧ FileService.load_stufflog (FileState.parsed ⟨none⟩) = ⟨some []⟩
    ∧ StufflogApp.load_stufflog FileState.invalidYaml = Except.ok ⟨some []⟩
    ∧ Legacy.load_stufflog FileState.invalidYaml
        = Except.error StufflogError.yamlParseError :=
  ⟨rfl, rfl, rfl, rfl⟩

/-- C2: Load (the file-service layer, whose job the spec distinguishes from
the higher-level existence check) on a missing or zero-byte backing file
returns a Stufflog with an empty entry mapping; it is a total function here,
so no error is raised. -/
theorem load_missing_or_empty_file_defaults_empty :
    FileService.load_stufflog FileState.missing = ⟨some []⟩
    ∧ FileService.load_stufflog FileState.emptyFile = ⟨some []⟩ :=
  ⟨rfl, rfl⟩

/-- C7: saving a Stufflog whose data contains an `Entries` mapping and
loading it back yields the identical entry mapping - the same titles bound
to identical `Datetime`, `Rating` and `Comment` values, in the same
insertion order (the mapping is an ordered association list). -/
theorem save_then_load_round_trip (es : EntryMap) :
    FileService.load_stufflog (FileService.save_stufflog ⟨some es⟩) = ⟨some es⟩
    ∧ getEntries (FileService.load_stufflog (FileService.save_stufflog ⟨some es⟩))
        = es :=
  ⟨rfl, rfl⟩

/-- C3: with `GreaterThan = r` set (and no other filter), the query keeps
exactly the entries whose rating - defaulted to 0 when the `Rating` field is
absent - strictly exceeds `r`, so every entry with rating `<= r` is excluded;
symmetrically `LessThan = r` keeps exactly the entries with rating strictly
below `r`; and with no filter set at all every entry is kept, so a missing
`Rating` by itself never excludes an entry. -/
theorem query_rating_bounds_strict (es : EntryMap) (r : Int) :
    queryEntries (some r) none none none es
      = Except.ok ((es.filter (fun p => decide (r < ratingD p.2))).map
          (fun p => ResultEntry.mk p.1 p.2))
    ∧ queryEntries none (some r) none none es
      = Except.ok ((es.filter (fun p => decide (ratingD p.2 < r))).map
          (fun p => ResultEntry.mk p.1 p.2))
    ∧ queryEntries none none none none es
      = Except.ok (es.map (fun p => ResultEntry.mk p.1 p.2)) :=
  ⟨queryEntries_gt_only r es, queryEntries_lt_only r es, queryEntries_no_filter es⟩

/-- C6: search includes an entry exactly when the lower-cased term occurs as
a substring of the lower-cased title or of the lower-cased comment (an entry
without a comment can only match via its title, per `searchMatches`);
`strContains` is genuine substring occurrence; and two terms equal after
lower-casing produce identical result lists. -/
theorem search_case_insensitive_substring (es : EntryMap) (term : String) :
    (searchEntries es term
      = (es.filter (fun p => searchMatches (strLower term) p.1 p.2)).map
          (fun p => ResultEntry.mk p.1 p.2))
    ∧ (∀ hay needle : String,
        strContains hay needle = true
          ↔ ∃ pre post, hay.data = pre ++ needle.data ++ post)
    ∧ (∀ term2 : String, strLower term = strLower term2 →
        searchEntries es term = searchEntries es term2) := by
  refine ⟨searchLoop_eq_filter (strLower term) es, fun hay needle => strContains_iff hay needle, ?_⟩
  intro term2 h
  unfold searchEntries
  rw [h]

/-- Witness for C6: on the sample store, searching for `PYTHON` and for
`python` return the same (nonempty) result list. -/
theorem search_case_insensitive_substring_witness :
    searchEntries demoEntries "PYTHON" = searchEntries demoEntries "python"
    ∧ searchEntries demoEntries "PYTHON" = [ResultEntry.mk "Dune" entA] :=
  ⟨(search_case_insensitive_substring demoEntries "PYTHON").2.2 "python" (by decide),
   by decide⟩

/-- C9: on an initialized (loadable) category, searching for the empty string
returns every entry of the mapping, each with its `Title` attached, in the
mapping's stored order. -/
theorem search_empty_term_returns_all (fs : FileState) (d : StoredData)
    (h : StufflogApp.load_stufflog fs = Except.ok d) :
    StufflogApp.search_entries fs ""
      = Except.ok ((getEntries d).map (fun p => ResultEntry.mk p.1 p.2)) := by
  unfold StufflogApp.search_entries
  rw [h]
  show Except.ok (searchEntries (getEntries d) "") = _
  unfold searchEntries
  have hl : strLower "" = "" := rfl
  rw [hl, searchLoop_empty_term]

/-- Witness for C9: searching the sample two-entry store with the empty term
returns both entries in stored order. -/
theorem search_empty_term_returns_all_witness :
    StufflogApp.search_entries demoFs ""
      = Except.ok [ResultEntry.mk "Dune" entA, ResultEntry.mk "1984" entB] :=
  search_empty_term_returns_all demoFs ⟨some demoEntries⟩ rfl

theorem queryCheck_error_is_dateParse (gt lt : Option Int)
    (after before : Option String) (e : Entry) (err : StufflogError)
    (h : queryCheck gt lt after before e = Except.error err) :
    ∃ s, err = StufflogError.dateParseError s := by
  rcases after with _ | a
  · rcases before with _ | b
    · simp [queryCheck] at h
    · rcases hp : parseISO (datetimeStr e) with _ | ed
      · simp [queryCheck, hp] at h
        exact ⟨datetimeStr e, h.symm⟩
      · rcases hq : parseISO b with _ | fd
        · simp [queryCheck, hp, hq] at h
          exact ⟨b, h.symm⟩
        · simp [queryCheck, hp, hq] at h
  · rcases hp : parseISO (datetimeStr e) with _ | ed
    · simp [queryCheck, hp] at h
      exact ⟨datetimeStr e, h.symm⟩
    · rcases hq : parseISO a with _ | fd
      · simp [queryCheck, hp, hq] at h
        exact ⟨a, h.symm⟩
      · rcases before with _ | b
        · simp [queryCheck, hp, hq] at h
        · rcases hr : parseISO b with _ | fd2
          · simp [queryCheck, hp, hq, hr] at h
            exact ⟨b, h.symm⟩
          · simp [queryCheck, hp, hq, hr] at h

theorem queryCheck_badDT (gt lt : Option Int) (after before : Option String)
    (e : Entry) (hbad : parseISO (datetimeStr e) = none)
    (hdate : after.isSome = true ∨ before.isSome = true) :
    queryCheck gt lt after before e
      = Except.error (StufflogError.dateParseError (datetimeStr e)) := by
  rcases after with _ | a
  · rcases before with _ | b
    · simp at hdate
    · simp [queryCheck, hbad]
  · simp [queryCheck, hbad]

theorem queryEntries_error_of_badDT (gt lt : Option Int)
    (after before : Option String) (t0 : String) (e0 : Entry)
    (hbad : parseISO (datetimeStr e0) = none)
    (hdate : after.isSome = true ∨ before.isSome = true) :
    ∀ es : EntryMap, (t0, e0) ∈ es →
      ∃ s, queryEntries gt lt after before es
        = Except.error (StufflogError.dateParseError s) := by
  intro es
  induction es with
  | nil => intro hmem; simp at hmem
  | cons p rest ih =>
    intro hmem
    obtain ⟨t, e⟩ := p
    rcases List.mem_cons.1 hmem with heq | hmem2
    · have he : e0 = e := congrArg Prod.snd heq
      have hc := queryCheck_badDT gt lt after before e0 hbad hdate
      rw [he] at hc
      exact ⟨datetimeStr e, by simp [queryEntries, hc]⟩
    · cases hc : queryCheck gt lt after before e with
      | error err =>
        obtain ⟨s, hs⟩ := queryCheck_error_is_dateParse gt lt after before e err hc
        exact ⟨s, by simp [queryEntries, hc, hs]⟩
      | ok inc =>
        obtain ⟨s, hs⟩ := ih hmem2
        exact ⟨s, by simp [queryEntries, hc, hs]⟩

/-- C5: whenever a date bound (`After` or `Before`) is set and some entry of
the mapping has a `Datetime` that is missing (read as the empty string) or
not parseable as ISO-8601, the query does not skip that entry: the whole
invocation fails with a propagated date-parse error. -/
theorem query_date_parse_error_propagates (es : EntryMap) (gt lt : Option Int)
    (after before : Option String)
    (hdate : after.isSome = true ∨ before.isSome = true)
    (hex : ∃ p ∈ es, parseISO (datetimeStr p.2) = none) :
    ∃ s, queryEntries gt lt after before es
      = Except.error (StufflogError.dateParseError s) := by
  obtain ⟨⟨t0, e0⟩, hmem, hbad⟩ := hex
  exact queryEntries_error_of_badDT gt lt after before t0 e0 hbad hdate es hmem

/-- Witness for C5: a one-entry store whose entry lacks a `Datetime` makes an
`After`-bounded query fail with a date-parse error. -/
theorem query_date_parse_error_propagates_witness :
    ∃ s, queryEntries none none (some "2024-01-15T00:00:00") none
        [("X", entNoDate)]
      = Except.error (StufflogError.dateParseError s) :=
  query_date_parse_error_propagates [("X", entNoDate)] none none
    (some "2024-01-15T00:00:00") none (Or.inl rfl)
    ⟨("X", entNoDate), by simp, rfl⟩

/-- C10: with both `GreaterThan` and `After` set, the datetime of every entry
is parsed even when the entry is already excluded by the rating bound, so a
mapping containing an entry with rating at most the bound and a missing or
malformed `Datetime` still makes the whole query fail with a parse error. -/
theorem query_parses_dates_of_excluded_entries (es : EntryMap) (g : Int)
    (lt : Option Int) (a : String) (before : Option String)
    (t0 : String) (e0 : Entry) (hmem : (t0, e0) ∈ es)
    (_hexcl : ratingD e0 ≤ g) (hbad : parseISO (datetimeStr e0) = none) :
    ∃ s, queryEntries (some g) lt (some a) before es
      = Except.error (StufflogError.dateParseError s) :=
  queryEntries_error_of_badDT (some g) lt (some a) before t0 e0 hbad
    (Or.inl rfl) es hmem

/-- Witness for C10: the entry `X` has rating 2, below the bound 4, yet its
missing `Datetime` still aborts the query. -/
theorem query_parses_dates_of_excluded_entries_witness :
    ∃ s, queryEntries (some 4) none (some "2024-01-15T00:00:00") none
        [("X", entNoDate)]
      = Except.error (StufflogError.dateParseError s) :=
  query_parses_dates_of_excluded_entries [("X", entNoDate)] 4 none
    "2024-01-15T00:00:00" none "X" entNoDate (by simp) (by decide) rfl

theorem load_parsed_some (es : EntryMap) :
    StufflogApp.load_stufflog (FileState.parsed ⟨some es⟩) = Except.ok ⟨some es⟩ := rfl

theorem add_entry_parsed (es : EntryMap) (t : String) (r : Int)
    (c : Option String) (now : String) :
    StufflogApp.add_entry (FileState.parsed ⟨some es⟩) t r c now
      = if es.any (fun p => p.1 == t) then
          (Except.error (StufflogError.duplicateTitle t),
            FileState.parsed ⟨some es⟩)
        else
          (Except.ok (), FileState.parsed
            ⟨some (es ++ [(t, ⟨some now, some r, commentField c⟩)])⟩) := rfl

theorem delete_entry_parsed (es : EntryMap) (t : String) :
    StufflogApp.delete_entry (FileState.parsed ⟨some es⟩) t
      = if es.any (fun p => p.1 == t) then
          (Except.ok (),
            FileState.parsed ⟨some (es.eraseP (fun p => p.1 == t))⟩)
        else
          (Except.error (StufflogError.entryNotFound t),
            FileState.parsed ⟨some es⟩) := rfl

theorem query_entries_parsed (es : EntryMap) (gt lt : Option Int)
    (after before : Option String) :
    StufflogApp.query_entries (FileState.parsed ⟨some es⟩) gt lt after before
      = queryEntries gt lt after before es := rfl

theorem search_entries_parsed (es : EntryMap) (term : String) :
    StufflogApp.search_entries (FileState.parsed ⟨some es⟩) term
      = Except.ok (searchEntries es term) := rfl

theorem loadedTitles_parsed (es : EntryMap) :
    loadedTitles (FileState.parsed ⟨some es⟩) = es.map Prod.fst := rfl

/-- C4: once `AddEntry(cat, t, r)` has succeeded, a second add of the same
title `t` fails with the duplicate-title conflict whatever rating, comment or
timestamp it carries, and it returns the backing file unchanged (the raise
happens before any save); the membership test is exact string equality, so
any different title - in particular one differing only in letter case - that
was not already a key still adds successfully. -/
theorem add_duplicate_title_conflict (fs fs' : FileState) (t : String)
    (r : Int) (c : Option String) (now : String)
    (h : StufflogApp.add_entry fs t r c now = (Except.ok (), fs')) :
    (∀ (r2 : Int) (c2 : Option String) (now2 : String),
        StufflogApp.add_entry fs' t r2 c2 now2
          = (Except.error (StufflogError.duplicateTitle t), fs'))
    ∧ (∀ (t2 : String) (r2 : Int) (c2 : Option String) (now2 : String),
        t2 ≠ t → t2 ∉ loadedTitles fs →
        (StufflogApp.add_entry fs' t2 r2 c2 now2).1 = Except.ok ()) := by
  unfold StufflogApp.add_entry at h
  split at h
  next err heq =>
    exact absurd (congrArg Prod.fst h) (by simp)
  next data heq =>
    split at h
    next hdup =>
      exact absurd (congrArg Prod.fst h) (by simp)
    next hdup =>
      have hfs' : FileState.parsed
          ⟨some (getEntries data ++ [(t, ⟨some now, some r, commentField c⟩)])⟩
            = fs' := congrArg Prod.snd h
      subst hfs'
      constructor
      · intro r2 c2 now2
        rw [add_entry_parsed]
        have hany : (getEntries data
            ++ [(t, (⟨some now, some r, commentField c⟩ : Entry))]).any
              (fun p => p.1 == t) = true := by
          simp [List.any_append]
        rw [if_pos hany]
      · intro t2 r2 c2 now2 ht2 hmem
        have hmem' : t2 ∉ (getEntries data).map Prod.fst := by
          unfold loadedTitles at hmem
          rw [heq] at hmem
          exact hmem
        have h1 : (getEntries data).any (fun p => p.1 == t2) = false := by
          cases hc : (getEntries data).any (fun p => p.1 == t2) with
          | false => rfl
          | true =>
            obtain ⟨p, hp, hpt⟩ := List.any_eq_true.1 hc
            exact absurd (List.mem_map.2 ⟨p, hp, by simpa using hpt⟩) hmem'
        have h2 : (t == t2) = false := by
          simpa using Ne.symm ht2
        rw [add_entry_parsed]
        simp [List.any_append, h1, h2]

/-- Witness for C4: after adding `Dune` to an empty store, re-adding `Dune`
with a different rating fails with the duplicate conflict and leaves the file
state unchanged, while the lowercase variant `dune` still adds. -/
theorem add_duplicate_title_conflict_witness :
    StufflogApp.add_entry fsDune "Dune" 3 none "2024-01-02T00:00:00"
      = (Except.error (StufflogError.duplicateTitle "Dune"), fsDune)
    ∧ (StufflogApp.add_entry fsDune "dune" 4 none "2024-01-02T00:00:00").1
        = Except.ok () :=
  ⟨(add_duplicate_title_conflict fsEmpty fsDune "Dune" 5 none
      "2024-01-01T10:00:00" rfl).1 3 none "2024-01-02T00:00:00",
   (add_duplicate_title_conflict fsEmpty fsDune "Dune" 5 none
      "2024-01-01T10:00:00" rfl).2 "dune" 4 none "2024-01-02T00:00:00"
      (by decide) (by decide)⟩

theorem eraseP_titles_ne (t : String) :
    ∀ es : EntryMap, (es.map Prod.fst).Nodup →
      ∀ x ∈ (es.eraseP (fun p => p.1 == t)).map Prod.fst, x ≠ t := by
  intro es
  induction es with
  | nil =>
    intro _ x hx
    simp at hx
  | cons p rest ih =>
    intro hnd x hx
    obtain ⟨t1, e1⟩ := p
    rw [ List.map_cons, List.nodup_cons] at hnd
    obtain ⟨hnotin, hndr⟩ := hnd
    cases hp : (t1 == t) with
    | true =>
      have ht1 : t1 = t := by simpa using hp
      rw [ List.eraseP_cons, hp] at hx
      simp only [cond] at hx
      intro hxt
      rw [ht1] at hnotin
      rw [hxt] at hx
      exact hnotin hx
    | false =>
      have hne : t1 ≠ t := by
        intro hEq
        rw [hEq] at hp
        simp at hp
      rw [ List.eraseP_cons, hp] at hx
      simp only [cond] at hx
      rw [ List.map_cons] at hx
      rcases List.mem_cons.1 hx with hxe | hx2
      · rw [hxe]
        exact hne
      · exact ih hndr x hx2

theorem queryEntries_titles_mem (gt lt : Option Int)
    (after before : Option String) :
    ∀ (es : EntryMap) (rs : List ResultEntry),
      queryEntries gt lt after before es = Except.ok rs →
      ∀ r ∈ rs, r.title ∈ es.map Prod.fst := by
  intro es
  induction es with
  | nil =>
    intro rs h r hr
    unfold queryEntries at h
    have hrs : ([] : List ResultEntry) = rs := by simpa using h
    rw [← hrs] at hr
    simp at hr
  | cons p rest ih =>
    intro rs h r hr
    obtain ⟨t1, e1⟩ := p
    unfold queryEntries at h
    split at h
    next err heq => simp at h
    next inc heq =>
      split at h
      next err2 heq2 => simp at h
      next rs2 heq2 =>
        have hrs : (if inc = true then ResultEntry.mk t1 e1 :: rs2 else rs2)
            = rs := by simpa using h
        rw [← hrs] at hr
        rw [ List.map_cons]
        by_cases hi : inc = true
        · rw [if_pos hi] at hr
          rcases List.mem_cons.1 hr with hre | hr2
          · rw [hre]
            exact List.mem_cons_self _ _
          · exact List.mem_cons_of_mem _ (ih rs2 heq2 r hr2)
        · rw [if_neg hi] at hr
          exact List.mem_cons_of_mem _ (ih rs2 heq2 r hr)

theorem searchLoop_titles_mem (tl : String) :
    ∀ es : EntryMap, ∀ r ∈ searchLoop tl es, r.title ∈ es.map Prod.fst := by
  intro es
  induction es with
  | nil =>
    intro r hr
    simp [searchLoop] at hr
  | cons p rest ih =>
    intro r hr
    obtain ⟨t1, e1⟩ := p
    unfold searchLoop at hr
    rw [ List.map_cons]
    by_cases hm : searchMatches tl t1 e1 = true
    · rw [if_pos hm] at hr
      rcases List.mem_cons.1 hr with hre | hr2
      · rw [hre]
        exact List.mem_cons_self _ _
      · exact List.mem_cons_of_mem _ (ih r hr2)
    · rw [if_neg hm] at hr
      exact List.mem_cons_of_mem _ (ih r hr)

theorem contains_eq_false_of_forall_ne (l : List String) (t : String)
    (h : ∀ x ∈ l, x ≠ t) : l.contains t = false := by
  cases hc : l.contains t with
  | false => rfl
  | true =>
    have hmem : t ∈ l := by simpa using hc
    exact absurd rfl (h t hmem)

theorem delete_entry_not_found (fs0 : FileState) (d0 : StoredData) (t0 : String)
    (h0 : StufflogApp.load_stufflog fs0 = Except.ok d0)
    (hnk : t0 ∉ (getEntries d0).map Prod.fst) :
    StufflogApp.delete_entry fs0 t0
      = (Except.error (StufflogError.entryNotFound t0), fs0) := by
  have hfalse : (getEntries d0).any (fun p => p.1 == t0) = false := by
    cases hc : (getEntries d0).any (fun p => p.1 == t0) with
    | false => rfl
    | true =>
      obtain ⟨p, hp, hpt⟩ := List.any_eq_true.1 hc
      exact absurd (List.mem_map.2 ⟨p, hp, by simpa using hpt⟩) hnk
  unfold StufflogApp.delete_entry
  rw [h0]
  dsimp only
  rw [hfalse]
  simp

/-- C8: after `DeleteEntry(cat, t)` succeeds (dict keys are unique, hence the
no-duplicate hypothesis on the loaded titles), `t` is no longer a key of the
stored mapping, and no query and no search against the resulting state
returns a result titled `t`; moreover `DeleteEntry` on any loadable state
whose mapping lacks the key fails with the not-found error and leaves the
state unchanged. -/
theorem delete_then_query_excludes_title
    (fs fs' : FileState) (t : String)
    (gt lt : Option Int) (after before : Option String) (term : String)
    (rs rs2 : List ResultEntry) (fs0 : FileState) (d0 : StoredData)
    (t0 : String)
    (hnd : (loadedTitles fs).Nodup)
    (h : StufflogApp.delete_entry fs t = (Except.ok (), fs'))
    (hq : StufflogApp.query_entries fs' gt lt after before = Except.ok rs)
    (hs : StufflogApp.search_entries fs' term = Except.ok rs2)
    (h0 : StufflogApp.load_stufflog fs0 = Except.ok d0)
    (hnk : t0 ∉ (getEntries d0).map Prod.fst) :
    (loadedTitles fs').contains t = false
    ∧ rs.all (fun r => !(r.title == t)) = true
    ∧ rs2.all (fun r => !(r.title == t)) = true
    ∧ StufflogApp.delete_entry fs0 t0
        = (Except.error (StufflogError.entryNotFound t0), fs0) := by
  unfold StufflogApp.delete_entry at h
  split at h
  next err heq => exact absurd (congrArg Prod.fst h) (by simp)
  next data heq =>
    split at h
    next hdup =>
      have hfs' : FileState.parsed
          ⟨some ((getEntries data).eraseP (fun p => p.1 == t))⟩ = fs' :=
        congrArg Prod.snd h
      subst hfs'
      have hndes : ((getEntries data).map Prod.fst).Nodup := by
        unfold loadedTitles at hnd
        rw [heq] at hnd
        exact hnd
      have hne := eraseP_titles_ne t (getEntries data) hndes
      refine ⟨?_, ?_, ?_, delete_entry_not_found fs0 d0 t0 h0 hnk⟩
      · rw [loadedTitles_parsed]
        exact contains_eq_false_of_forall_ne _ t hne
      · rw [query_entries_parsed] at hq
        have hmemq := queryEntries_titles_mem gt lt after before _ rs hq
        rw [ List.all_eq_true]
        intro r hr
        have hrt : r.title ≠ t := hne r.title (hmemq r hr)
        simpa using hrt
      · rw [search_entries_parsed] at hs
        have hrs2 : searchEntries
            ((getEntries data).eraseP (fun p => p.1 == t)) term = rs2 := by
          simpa using hs
        rw [ List.all_eq_true]
        intro r hr
        rw [← hrs2] at hr
        have hmem := searchLoop_titles_mem (strLower term) _ r hr
        have hrt : r.title ≠ t := hne r.title hmem
        simpa using hrt
    next hdup => exact absurd (congrArg Prod.fst h) (by simp)

/-- Witness for C8: deleting `Dune` from the sample store, then querying with
no bounds and searching with the empty term, never yields a result titled
`Dune`, and deleting `Dune` again fails with the not-found error. -/
theorem delete_then_query_excludes_title_witness :
    (loadedTitles fs1984).contains "Dune" = false
    ∧ ([ResultEntry.mk "1984" entB] : List ResultEntry).all
        (fun r => !(r.title == "Dune")) = true
    ∧ ([ResultEntry.mk "1984" entB] : List ResultEntry).all
        (fun r => !(r.title == "Dune")) = true
    ∧ StufflogApp.delete_entry fs1984 "Dune"
        = (Except.error (StufflogError.entryNotFound "Dune"), fs1984) :=
  delete_then_query_excludes_title demoFs fs1984 "Dune" none none none none ""
    [ResultEntry.mk "1984" entB] [ResultEntry.mk "1984" entB] fs1984
    ⟨some [("1984", entB)]⟩ "Dune" (by decide) rfl rfl rfl rfl (by decide)
